import Mathlib

/-!
Verification of the purchases dataframe queries from
`matrix-examples/Purchases/purchases.py`.

The script loads a purchases table (columns `country`, `amount`, `discount`)
and evaluates a sequence of independent pandas queries: a total sum, group-by
sums over `country`, net-of-discount group totals, a global-median outlier
filter, a per-country-median outlier filter written with a nested
`groupby.apply`, and an equivalent formulation using `assign` of a
`country_median` column followed by `query`.

The embedding below models a dataframe as a list of rows.  The `country`
column is `Option String` (`none` models a missing / NaN country, which
pandas `groupby` silently drops).  Numeric columns are rationals.  The pandas
median of a series is the middle element of the sorted values for odd length
and the mean of the two middle elements for even length.  `groupby` sorts the
group keys lexicographically (pandas default `sort=True`) and preserves the
original row order inside each group; the key order is modelled by an
explicit byte-wise lexicographic order on strings.
-/

/-- One row of the purchases table: `country`, `amount`, `discount`. -/
structure Row where
  country : Option String
  amount : ℚ
  discount : ℚ
  deriving DecidableEq

/-- A dataframe is a list of rows, in order. -/
abbrev Table := List Row

/-- Lexicographic comparison of character lists, by code point. -/
def clLe : List Char → List Char → Bool
  | [], _ => true
  | _ :: _, [] => false
  | a :: as, b :: bs =>
    if a.toNat < b.toNat then true
    else if b.toNat < a.toNat then false
    else clLe as bs

/-- Lexicographic comparison of strings, used for the sorted group keys. -/
def strLe (a b : String) : Bool := clLe a.data b.data

/-- The key order as a relation, for `List.insertionSort`. -/
def strRel (a b : String) : Prop := strLe a b = true

instance : DecidableRel strRel := fun a b => instDecidableEqBool (strLe a b) true

/-- Sort a list of group keys in ascending lexicographic order. -/
def sortKeys (l : List String) : List String := l.insertionSort strRel

/-- Pandas `Series.median`: middle of the sorted values (odd length), or the
mean of the two middle values (even length).  Only ever applied to nonempty
series in the script; on `[]` it returns the junk value `0`. -/
def seriesMedian (l : List ℚ) : ℚ :=
  let s := l.insertionSort (· ≤ ·)
  let n := l.length
  if n % 2 = 1 then s.getD (n / 2) 0
  else (s.getD (n / 2 - 1) 0 + s.getD (n / 2) 0) / 2

/-- The query `purchases["amount"].sum()`. -/
def sumAmount (t : Table) : ℚ := (t.map Row.amount).sum

/-- The distinct non-null `country` values of a table in ascending order:
the group keys produced by `groupby("country")` (pandas drops NaN keys and
sorts the remaining keys by default). -/
def colKeys (t : Table) : List String := sortKeys (t.filterMap Row.country).dedup

/-- The rows of the group for key `c`, in their original order. -/
def groupRows (t : Table) (c : String) : Table :=
  t.filter (fun r => decide (r.country = some c))

/-- A `groupby("country")` aggregation: for each group key, the sum of `f`
over the rows of that group. -/
def aggByCountry (f : Row → ℚ) (t : Table) : List (String × ℚ) :=
  (colKeys t).map (fun c => (c, ((groupRows t c).map f).sum))

/-- The query `purchases.groupby("country")["amount"].sum()` (and the
equivalent `agg(total=("amount", "sum"))` form). -/
def groupbySumAmount (t : Table) : List (String × ℚ) := aggByCountry Row.amount t

/-- The query `groupby("country").apply(lambda df: (df["amount"] - df["discount"]).sum())`. -/
def netByCountry (t : Table) : List (String × ℚ) :=
  aggByCountry (fun r => r.amount - r.discount) t

/-- The filter `query("amount <= amount.median() * 10")`: the threshold is
ten times the median of `amount` over the whole table. -/
def globalMedianFiltered (t : Table) : Table :=
  t.filter (fun r => decide (r.amount ≤ seriesMedian (t.map Row.amount) * 10))

/-- The first outlier query: global-median filter, then net-of-discount
group totals. -/
def globalOutlierNet (t : Table) : List (String × ℚ) :=
  netByCountry (globalMedianFiltered t)

/-- The median of `amount` inside the group of country `c`. -/
def countryMedian (t : Table) (c : String) : ℚ :=
  seriesMedian ((groupRows t c).map Row.amount)

/-- The body of `apply(lambda df: df[df["amount"] <= df["amount"].median() * 10])`
for the group of country `c`. -/
def groupOutlierChunk (t : Table) (c : String) : Table :=
  (groupRows t c).filter (fun r => decide (r.amount ≤ countryMedian t c * 10))

/-- The table produced by
`groupby("country").apply(lambda df: df[df["amount"] <= df["amount"].median() * 10]).reset_index(drop=True)`:
the per-group filtered chunks concatenated in sorted key order. -/
def groupFilterOutliers (t : Table) : Table :=
  (colKeys t).flatMap (groupOutlierChunk t)

/-- The nested-apply outlier query: per-country median filter, then
net-of-discount group totals. -/
def nestedApplyNet (t : Table) : List (String × ℚ) :=
  netByCountry (groupFilterOutliers t)

/-- The table produced by
`assign(country_median=...groupby("country")["amount"].transform("median")).query("amount <= country_median * 10")`.
A row with a missing country receives a NaN `country_median`, so the
comparison is false and the row is dropped by `query`. -/
def assignFiltered (t : Table) : Table :=
  t.filter (fun r =>
    match r.country with
    | some c => decide (r.amount ≤ countryMedian t c * 10)
    | none => false)

/-- The assign-then-query outlier query: `country_median` column, filter,
then net-of-discount group totals. -/
def assignNet (t : Table) : List (String × ℚ) :=
  netByCountry (assignFiltered t)

/-- The rows whose `country` is present (not NaN). -/
def dropNullCountry (t : Table) : Table :=
  t.filter (fun r => decide (r.country ≠ none))

/-- Spec formulation, step 1: "Compute, per country, the median of `amount`." -/
def specCountryMedian (t : Table) (c : String) : ℚ :=
  seriesMedian ((t.filter (fun r => decide (r.country = some c))).map Row.amount)

/-- Spec formulation, step 2: "Keep rows where `amount <= 10 × that country's
median`."  A row without a country has no country median and is not kept. -/
def specKeptRows (t : Table) : Table :=
  t.filter (fun r =>
    match r.country with
    | some c => decide (r.amount ≤ 10 * specCountryMedian t c)
    | none => false)

/-- Spec formulation, step 3: "Group remaining rows by country and sum
`(amount - discount)`." -/
def specNetTotals (t : Table) : List (String × ℚ) :=
  aggByCountry (fun r => r.amount - r.discount) (specKeptRows t)

/-- The displayed value of one query: a scalar or a keyed table of totals. -/
inductive QueryResult where
  | scalar : ℚ → QueryResult
  | grouped : List (String × ℚ) → QueryResult

/-- The queries of the script, in source order (the `head()` call displays
rows and computes nothing). -/
def scriptQueries : List (Table → QueryResult) :=
  [ fun t => QueryResult.scalar (sumAmount t),
    fun t => QueryResult.grouped (groupbySumAmount t),
    fun t => QueryResult.grouped (groupbySumAmount t),
    fun t => QueryResult.grouped (netByCountry t),
    fun t => QueryResult.grouped (globalOutlierNet t),
    fun t => QueryResult.grouped (nestedApplyNet t),
    fun t => QueryResult.grouped (assignNet t) ]

/-- Run the script: thread the loaded `purchases` table through every query.
Each pandas call in the script returns a new derived object (none uses
`inplace=True`), so a step leaves the state untouched and records its
result. -/
def runScript (t : Table) : Table × List QueryResult :=
  scriptQueries.foldl (fun acc q => (acc.1, acc.2 ++ [q acc.1])) (t, [])

/-- The two-row fixture of the spec: `{(US, 100, 10), (US, 50, 5)}`. -/
def purchasesFixtureC5 : Table :=
  [⟨some "US", 100, 10⟩, ⟨some "US", 50, 5⟩]

/-- A two-country fixture with every country present. -/
def tableC3Witness : Table :=
  [⟨some "US", 100, 10⟩, ⟨some "FR", 3, 1⟩]

/-- A one-row fixture whose country is missing. -/
def tableC3Null : Table := [⟨none, 5, 0⟩]

/-- A one-row fixture for the idempotence witness. -/
def tableC4Witness : Table := [⟨some "US", 100, 10⟩]

/-- A fixture where the global median and the per-country medians give
different outlier thresholds. -/
def tableC6Cex : Table :=
  [⟨some "FR", 1000, 0⟩, ⟨some "US", 1, 0⟩, ⟨some "US", 1, 0⟩]

/-- A fixture for the determinism witness. -/
def tableC8Witness : Table := [⟨some "US", 100, 10⟩]

/-! ### The key order is a decidable linear order -/

theorem clLe_total : ∀ a b : List Char, clLe a b = true ∨ clLe b a = true
  | [], _ => Or.inl rfl
  | _ :: _, [] => Or.inr rfl
  | a :: as, b :: bs => by
    rcases Nat.lt_trichotomy a.toNat b.toNat with h | h | h
    · left; simp [clLe, h]
    · have hab : ¬ a.toNat < b.toNat := by omega
      have hba : ¬ b.toNat < a.toNat := by omega
      simpa [clLe, hab, hba] using clLe_total as bs
    · right; simp [clLe, h]

theorem clLe_trans :
    ∀ a b c : List Char, clLe a b = true → clLe b c = true → clLe a c = true
  | [], _, _, _, _ => rfl
  | _ :: _, [], _, hab, _ => by simp [clLe] at hab
  | _ :: _, _ :: _, [], _, hbc => by simp [clLe] at hbc
  | a :: as, b :: bs, c :: cs, hab, hbc => by
    simp only [clLe] at hab hbc ⊢
    rcases Nat.lt_trichotomy a.toNat b.toNat with h1 | h1 | h1
    · rcases Nat.lt_trichotomy b.toNat c.toNat with h2 | h2 | h2
      · simp [show a.toNat < c.toNat by omega]
      · simp [show a.toNat < c.toNat by omega]
      · rw [if_neg (by omega), if_pos h2] at hbc
        exact absurd hbc (by simp)
    · rcases Nat.lt_trichotomy b.toNat c.toNat with h2 | h2 | h2
      · simp [show a.toNat < c.toNat by omega]
      · rw [if_neg (by omega), if_neg (by omega)] at hab hbc ⊢
        exact clLe_trans as bs cs hab hbc
      · rw [if_neg (by omega), if_pos h2] at hbc
        exact absurd hbc (by simp)
    · rw [if_neg (by omega), if_pos h1] at hab
      exact absurd hab (by simp)

theorem charEq_of_toNat_eq {a b : Char} (h : a.toNat = b.toNat) : a = b :=
  Char.eq_of_val_eq (UInt32.eq_of_val_eq (Fin.eq_of_val_eq h))

theorem clLe_antisymm :
    ∀ a b : List Char, clLe a b = true → clLe b a = true → a = b
  | [], [], _, _ => rfl
  | [], _ :: _, _, hba => by simp [clLe] at hba
  | _ :: _, [], hab, _ => by simp [clLe] at hab
  | a :: as, b :: bs, hab, hba => by
    simp only [clLe] at hab hba
    rcases Nat.lt_trichotomy a.toNat b.toNat with h | h | h
    · rw [if_neg (by omega), if_pos h] at hba
      exact absurd hba (by simp)
    · rw [if_neg (by omega), if_neg (by omega)] at hab hba
      rw [charEq_of_toNat_eq h, clLe_antisymm as bs hab hba]
    · rw [if_neg (by omega), if_pos h] at hab
      exact absurd hab (by simp)

instance : IsTotal String strRel := ⟨fun a b => clLe_total a.data b.data⟩

instance : IsTrans String strRel := ⟨fun a b c => clLe_trans a.data b.data c.data⟩

instance : IsAntisymm String strRel :=
  ⟨fun a b hab hba => String.ext (clLe_antisymm a.data b.data hab hba)⟩

/-! ### Group keys -/

theorem mem_sortKeys {c : String} {l : List String} : c ∈ sortKeys l ↔ c ∈ l :=
  (List.perm_insertionSort strRel l).mem_iff

theorem mem_colKeys {c : String} {t : Table} :
    c ∈ colKeys t ↔ ∃ r ∈ t, r.country = some c := by
  rw [colKeys, mem_sortKeys, List.mem_dedup, List.mem_filterMap]

theorem nodup_colKeys (t : Table) : (colKeys t).Nodup :=
  ((List.perm_insertionSort strRel _).nodup_iff).mpr (List.nodup_dedup _)

theorem sorted_colKeys (t : Table) : List.Sorted strRel (colKeys t) :=
  List.sorted_insertionSort strRel _

theorem colKeys_ext {t₁ t₂ : Table}
    (h : ∀ c, c ∈ colKeys t₁ ↔ c ∈ colKeys t₂) : colKeys t₁ = colKeys t₂ :=
  List.eq_of_perm_of_sorted
    ((List.perm_ext_iff_of_nodup (nodup_colKeys t₁) (nodup_colKeys t₂)).mpr h)
    (sorted_colKeys t₁) (sorted_colKeys t₂)

theorem mem_groupRows {r : Row} {t : Table} {c : String} :
    r ∈ groupRows t c ↔ r ∈ t ∧ r.country = some c := by
  simp [groupRows]

theorem colKeys_mem_iff {c : String} {t : Table} :
    c ∈ colKeys t ↔ groupRows t c ≠ [] := by
  rw [mem_colKeys, Ne, groupRows, List.filter_eq_nil_iff]
  simp

theorem colKeys_eq_of_groupRows_eq {t₁ t₂ : Table}
    (h : ∀ c, groupRows t₁ c = groupRows t₂ c) : colKeys t₁ = colKeys t₂ :=
  colKeys_ext fun c => by rw [colKeys_mem_iff, colKeys_mem_iff, h c]

theorem aggByCountry_congr (f : Row → ℚ) {t₁ t₂ : Table}
    (h : ∀ c, groupRows t₁ c = groupRows t₂ c) :
    aggByCountry f t₁ = aggByCountry f t₂ := by
  unfold aggByCountry
  rw [colKeys_eq_of_groupRows_eq h]
  exact List.map_congr_left fun c _ => by rw [h c]

theorem groupRows_filter (p : Row → Bool) (t : Table) (c : String) :
    groupRows (t.filter p) c = (groupRows t c).filter p := by
  unfold groupRows
  rw [List.filter_filter, List.filter_filter]
  exact List.filter_congr fun r _ => Bool.and_comm _ _

theorem groupRows_append (t₁ t₂ : Table) (c : String) :
    groupRows (t₁ ++ t₂) c = groupRows t₁ c ++ groupRows t₂ c :=
  List.filter_append _ _

theorem flatMap_congr_left {f g : String → Table} :
    ∀ ks : List String, (∀ c ∈ ks, f c = g c) → ks.flatMap f = ks.flatMap g
  | [], _ => rfl
  | c :: ks, h => by
    rw [List.flatMap_cons, List.flatMap_cons, h c (List.mem_cons_self c ks),
      flatMap_congr_left ks (fun c' hc' => h c' (List.mem_cons_of_mem c hc'))]

theorem groupRows_flatMap (f : String → Table) :
    ∀ ks : List String, ks.Nodup →
      (∀ c' ∈ ks, ∀ r ∈ f c', r.country = some c') →
      ∀ c, groupRows (ks.flatMap f) c = if c ∈ ks then f c else []
  | [], _, _, c => by simp [groupRows]
  | c' :: ks, hnd, hf, c => by
    rw [List.flatMap_cons, groupRows_append,
      groupRows_flatMap f ks hnd.of_cons
        (fun c'' hc'' => hf c'' (List.mem_cons_of_mem c' hc'')) c]
    by_cases hcc : c = c'
    · subst hcc
      have h1 : groupRows (f c) c = f c :=
        List.filter_eq_self.mpr fun r hr =>
          decide_eq_true (hf c (List.mem_cons_self c ks) r hr)
      have h2 : c ∉ ks := (List.nodup_cons.mp hnd).1
      simp [h1, h2]
    · have h1 : groupRows (f c') c = [] := by
        refine List.filter_eq_nil_iff.mpr fun r hr => ?_
        have hc := hf c' (List.mem_cons_self c' ks) r hr
        simp only [hc, decide_eq_true_eq, Option.some.injEq]
        exact fun h => hcc h.symm
      simp [h1, List.mem_cons, hcc]

theorem groupOutlierChunk_country {t : Table} {c : String} {r : Row}
    (hr : r ∈ groupOutlierChunk t c) : r.country = some c :=
  (mem_groupRows.mp (List.mem_of_mem_filter hr)).2

theorem groupRows_groupFilterOutliers (t : Table) (c : String) :
    groupRows (groupFilterOutliers t) c = groupOutlierChunk t c := by
  rw [groupFilterOutliers,
    groupRows_flatMap (groupOutlierChunk t) (colKeys t) (nodup_colKeys t)
      (fun c' _ r hr => groupOutlierChunk_country hr) c]
  by_cases hc : c ∈ colKeys t
  · rw [if_pos hc]
  · rw [if_neg hc]
    have hnil : groupRows t c = [] := by
      by_contra hne
      exact hc (colKeys_mem_iff.mpr hne)
    rw [groupOutlierChunk, hnil, List.filter_nil]

theorem groupRows_filter_by_country (P : String → Row → Bool) (t : Table) (c : String) :
    groupRows
      (t.filter (fun r => match r.country with
        | some c' => P c' r
        | none => false)) c
      = (groupRows t c).filter (P c) := by
  rw [groupRows_filter]
  exact List.filter_congr fun r hr => by rw [(mem_groupRows.mp hr).2]

theorem groupRows_assignFiltered (t : Table) (c : String) :
    groupRows (assignFiltered t) c = groupOutlierChunk t c :=
  groupRows_filter_by_country
    (fun c' r => decide (r.amount ≤ countryMedian t c' * 10)) t c

theorem specCountryMedian_eq (t : Table) (c : String) :
    specCountryMedian t c = countryMedian t c := rfl

theorem groupRows_specKeptRows (t : Table) (c : String) :
    groupRows (specKeptRows t) c = groupOutlierChunk t c := by
  refine (groupRows_filter_by_country
      (fun c' r => decide (r.amount ≤ 10 * specCountryMedian t c')) t c).trans ?_
  unfold groupOutlierChunk
  exact List.filter_congr fun r _ => by rw [specCountryMedian_eq, mul_comm]

/-- C1: for every purchases table the nested-apply formulation of the
per-country median outlier filter (group by country, keep rows with
`amount <= 10 * group median`, regroup and sum `amount - discount`) and the
assign-then-query formulation (add a `country_median` column by a group-wise
median transform, filter `amount <= country_median * 10`, group and sum
`amount - discount`) produce identical per-country totals. -/
theorem nestedApply_assign_agree (t : Table) : nestedApplyNet t = assignNet t :=
  aggByCountry_congr _ fun c =>
    (groupRows_groupFilterOutliers t c).trans (groupRows_assignFiltered t c).symm

/-- C2: for every input table the nested-apply outlier query computes exactly
the spec's three steps: the per-country median of `amount`, the subset of
rows whose `amount` is at most ten times their own country's median, and the
per-country sums of `amount - discount` over that subset. -/
theorem nestedApply_matches_spec (t : Table) : nestedApplyNet t = specNetTotals t :=
  aggByCountry_congr _ fun c =>
    (groupRows_groupFilterOutliers t c).trans (groupRows_specKeptRows t c).symm

theorem flatMap_groupRows_perm :
    ∀ ks : List String, ks.Nodup → ∀ t : Table,
      (∀ r ∈ t, ∃ c ∈ ks, r.country = some c) →
      (ks.flatMap (groupRows t)).Perm t
  | [], _, t, hcov => by
    have ht : t = [] := List.eq_nil_iff_forall_not_mem.mpr fun r hr => by
      rcases hcov r hr with ⟨c, hc, _⟩
      simp at hc
    simp [ht]
  | c :: ks, hnd, t, hcov => by
    rw [List.flatMap_cons]
    have hks : ∀ c' ∈ ks, groupRows t c' =
        groupRows (t.filter (fun r => !decide (r.country = some c))) c' := by
      intro c' hc'
      have hcc : c' ≠ c := fun h => (List.nodup_cons.mp hnd).1 (h ▸ hc')
      rw [groupRows_filter]
      symm
      refine List.filter_eq_self.mpr fun r hr => ?_
      have h2 := (mem_groupRows.mp hr).2
      simp [h2, hcc]
    have hcov' : ∀ r ∈ t.filter (fun r => !decide (r.country = some c)),
        ∃ c' ∈ ks, r.country = some c' := by
      intro r hr
      have hrt := List.mem_of_mem_filter hr
      have hpr := List.of_mem_filter hr
      rcases hcov r hrt with ⟨c', hc', hcr⟩
      rcases List.mem_cons.mp hc' with h | h
      · subst h
        simp [hcr] at hpr
      · exact ⟨c', h, hcr⟩
    have ih := flatMap_groupRows_perm ks hnd.of_cons _ hcov'
    rw [flatMap_congr_left ks hks]
    exact (ih.append_left (groupRows t c)).trans
      (List.filter_append_perm (fun r : Row => decide (r.country = some c)) t)

theorem sum_over_flatMap (f : Row → ℚ) (g : String → Table) :
    ∀ ks : List String,
      ((ks.flatMap g).map f).sum = (ks.map (fun c => ((g c).map f).sum)).sum
  | [] => rfl
  | c :: ks => by
    rw [List.flatMap_cons, List.map_append, List.sum_append, List.map_cons,
      List.sum_cons, sum_over_flatMap f g ks]

/-- C3 (amended to tables whose rows all carry a country): grouping by the
`country` column partitions the rows — the concatenation of the groups is a
permutation of the table, so each input row lands in exactly one group —
and the per-group sums of `amount` add up to the total sum of `amount`. -/
theorem groupby_partitions (t : Table) (h : ∀ r ∈ t, r.country ≠ none) :
    ((colKeys t).flatMap (groupRows t)).Perm t ∧
    ((groupbySumAmount t).map Prod.snd).sum = (t.map Row.amount).sum := by
  have hcov : ∀ r ∈ t, ∃ c ∈ colKeys t, r.country = some c := by
    intro r hr
    cases hc : r.country with
    | none => exact absurd hc (h r hr)
    | some c => exact ⟨c, mem_colKeys.mpr ⟨r, hr, hc⟩, rfl⟩
  have hperm := flatMap_groupRows_perm (colKeys t) (nodup_colKeys t) t hcov
  refine ⟨hperm, ?_⟩
  have h1 : (groupbySumAmount t).map Prod.snd
      = (colKeys t).map (fun c => ((groupRows t c).map Row.amount).sum) := by
    simp [groupbySumAmount, aggByCountry, List.map_map, Function.comp]
  rw [h1, ← sum_over_flatMap Row.amount (groupRows t) (colKeys t)]
  exact (hperm.map Row.amount).sum_eq

/-- Witness for C3 on a concrete two-country fixture. -/
theorem groupby_partitions_witness :
    (∀ r ∈ tableC3Witness, r.country ≠ none) ∧
    (((colKeys tableC3Witness).flatMap (groupRows tableC3Witness)).Perm tableC3Witness ∧
      ((groupbySumAmount tableC3Witness).map Prod.snd).sum
        = (tableC3Witness.map Row.amount).sum) :=
  ⟨by simp [tableC3Witness], groupby_partitions tableC3Witness (by simp [tableC3Witness])⟩

/-- Counterexample to C3 as stated for every table: on a table whose only
row has a missing country, the groups contain no row at all, so the group
sums (0) do not add up to the total sum (5). -/
theorem groupby_partitions_cex :
    ¬ ((((colKeys tableC3Null).flatMap (groupRows tableC3Null)).Perm tableC3Null) ∧
      ((groupbySumAmount tableC3Null).map Prod.snd).sum
        = (tableC3Null.map Row.amount).sum) := by
  intro hcl
  have h2 := hcl.2
  norm_num [tableC3Null, groupbySumAmount, aggByCountry, colKeys, sortKeys,
    List.insertionSort, List.dedup] at h2

/-- C4: the global outlier filter `amount <= median(amount) * 10` removes no
further rows on a second pass over its own output, for any table where no
remaining row exceeds ten times the recomputed median of the filtered
amounts. -/
theorem globalFilter_idempotent (t : Table)
    (h : ∀ r ∈ globalMedianFiltered t,
      r.amount ≤ seriesMedian ((globalMedianFiltered t).map Row.amount) * 10) :
    globalMedianFiltered (globalMedianFiltered t) = globalMedianFiltered t :=
  List.filter_eq_self.mpr fun r hr => decide_eq_true (h r hr)

/-- Witness for C4 on a concrete one-row fixture. -/
theorem globalFilter_idempotent_witness :
    (∀ r ∈ globalMedianFiltered tableC4Witness,
      r.amount ≤ seriesMedian ((globalMedianFiltered tableC4Witness).map Row.amount) * 10) ∧
    globalMedianFiltered (globalMedianFiltered tableC4Witness)
      = globalMedianFiltered tableC4Witness := by
  have hg : globalMedianFiltered tableC4Witness = tableC4Witness := by
    norm_num [globalMedianFiltered, tableC4Witness, seriesMedian,
      List.insertionSort, List.orderedInsert, List.filter]
  have h : ∀ r ∈ globalMedianFiltered tableC4Witness,
      r.amount ≤ seriesMedian ((globalMedianFiltered tableC4Witness).map Row.amount) * 10 := by
    rw [hg]
    norm_num [tableC4Witness, seriesMedian, List.insertionSort, List.orderedInsert]
  exact ⟨h, globalFilter_idempotent tableC4Witness h⟩

/-- C5: on the two-row fixture `{(US, 100, 10), (US, 50, 5)}` the total-sum
query returns 150 and the net-of-discount group-by query returns 135 for
`US`. -/
theorem fixture_totals :
    sumAmount purchasesFixtureC5 = 150 ∧
    netByCountry purchasesFixtureC5 = [("US", 135)] := by
  constructor
  · norm_num [sumAmount, purchasesFixtureC5]
  · norm_num [netByCountry, aggByCountry, purchasesFixtureC5, colKeys, sortKeys,
      groupRows, List.insertionSort, List.orderedInsert, List.filter, List.dedup,
      List.insert]

/-- Counterexample to C6 as stated: the first outlier query filters by the
global median of `amount`, not by each row's own country median.  On
`tableC6Cex` every row satisfies `amount <= 10 * own country median` (so the
claimed filter keeps all three rows), but the global-median filter drops the
FR row. -/
theorem outlier_threshold_cex :
    globalMedianFiltered tableC6Cex ≠ assignFiltered tableC6Cex := by
  have h1 : (globalMedianFiltered tableC6Cex).length = 2 := by
    norm_num [globalMedianFiltered, tableC6Cex, seriesMedian,
      List.insertionSort, List.orderedInsert, List.filter]
  have hgFR : groupRows tableC6Cex "FR" = [⟨some "FR", 1000, 0⟩] := by
    norm_num [groupRows, tableC6Cex, List.filter_cons,
      eq_false (by simp : ¬ (("US" : String) = "FR"))]
  have hgUS : groupRows tableC6Cex "US"
      = [⟨some "US", 1, 0⟩, ⟨some "US", 1, 0⟩] := by
    norm_num [groupRows, tableC6Cex, List.filter_cons,
      eq_false (by simp : ¬ (("FR" : String) = "US"))]
  have hFR : countryMedian tableC6Cex "FR" = 1000 := by
    rw [countryMedian, hgFR]
    norm_num [seriesMedian, List.insertionSort, List.orderedInsert]
  have hUS : countryMedian tableC6Cex "US" = 1 := by
    rw [countryMedian, hgUS]
    norm_num [seriesMedian, List.insertionSort, List.orderedInsert]
  have htbl : tableC6Cex
      = [⟨some "FR", 1000, 0⟩, ⟨some "US", 1, 0⟩, ⟨some "US", 1, 0⟩] := rfl
  rw [htbl] at hFR hUS
  have h2 : (assignFiltered tableC6Cex).length = 3 := by
    norm_num [assignFiltered, tableC6Cex, List.filter_cons, hFR, hUS]
  intro h
  rw [h, h2] at h1
  norm_num at h1

/-- C6 (amended): the two per-country outlier queries keep, inside each
country group, exactly the rows whose `amount` is at most ten times that
country's median of `amount`; the first outlier query instead keeps exactly
the rows whose `amount` is at most ten times the global median of `amount`
over the whole table. -/
theorem outlier_thresholds (t : Table) (c : String) :
    groupRows (groupFilterOutliers t) c
        = (groupRows t c).filter (fun r => decide (r.amount ≤ countryMedian t c * 10))
    ∧ groupRows (assignFiltered t) c
        = (groupRows t c).filter (fun r => decide (r.amount ≤ countryMedian t c * 10))
    ∧ globalMedianFiltered t
        = t.filter (fun r => decide (r.amount ≤ seriesMedian (t.map Row.amount) * 10)) :=
  ⟨groupRows_groupFilterOutliers t c, groupRows_assignFiltered t c, rfl⟩

/-- C7: the script never mutates the loaded purchases table: threading the
table through every query of the script returns it unchanged, and each
query's result is the pure value of that query on the loaded table (a new
derived table or scalar). -/
theorem script_preserves_table (t : Table) :
    (runScript t).1 = t ∧ (runScript t).2 = scriptQueries.map (fun q => q t) :=
  ⟨rfl, rfl⟩

/-- C8: every query of the script is deterministic: two evaluations of the
whole script over equal purchases tables yield equal results. -/
theorem script_deterministic (t₁ t₂ : Table) (h : t₁ = t₂) :
    runScript t₁ = runScript t₂ := by rw [h]

/-- Witness for C8 at a concrete table. -/
theorem script_deterministic_witness :
    runScript tableC8Witness = runScript tableC8Witness :=
  script_deterministic tableC8Witness tableC8Witness rfl

theorem groupRows_dropNullCountry (t : Table) (c : String) :
    groupRows (dropNullCountry t) c = groupRows t c := by
  rw [dropNullCountry, groupRows_filter]
  refine List.filter_eq_self.mpr fun r hr => ?_
  have h2 := (mem_groupRows.mp hr).2
  simp [h2]

theorem countryMedian_dropNullCountry (t : Table) (c : String) :
    countryMedian (dropNullCountry t) c = countryMedian t c := by
  rw [countryMedian, countryMedian, groupRows_dropNullCountry]

theorem colKeys_dropNullCountry (t : Table) :
    colKeys (dropNullCountry t) = colKeys t :=
  colKeys_eq_of_groupRows_eq (groupRows_dropNullCountry t)

theorem assignFiltered_dropNullCountry (t : Table) :
    assignFiltered (dropNullCountry t) = assignFiltered t := by
  have hA : assignFiltered (dropNullCountry t)
      = (dropNullCountry t).filter (fun r =>
          match r.country with
          | some c => decide (r.amount ≤ countryMedian t c * 10)
          | none => false) := by
    rw [assignFiltered]
    refine List.filter_congr fun r _ => ?_
    cases hc : r.country with
    | none => simp [hc]
    | some c => simp [hc, countryMedian_dropNullCountry]
  rw [hA, dropNullCountry, List.filter_filter]
  refine List.filter_congr fun r _ => ?_
  cases hc : r.country with
  | none => simp [hc]
  | some c => simp [hc]

theorem groupFilterOutliers_dropNullCountry (t : Table) :
    groupFilterOutliers (dropNullCountry t) = groupFilterOutliers t := by
  rw [groupFilterOutliers, groupFilterOutliers, colKeys_dropNullCountry]
  refine flatMap_congr_left _ fun c _ => ?_
  rw [groupOutlierChunk, groupOutlierChunk, groupRows_dropNullCountry,
    countryMedian_dropNullCountry]

/-- C9: rows with a missing (NaN) country are silently excluded from every
group-by result: each group-by query returns the same totals as on the
table with those rows removed, and for the global outlier query the grouped
totals likewise ignore any missing-country rows of the filtered table. -/
theorem null_country_excluded (t : Table) :
    groupbySumAmount (dropNullCountry t) = groupbySumAmount t ∧
    netByCountry (dropNullCountry t) = netByCountry t ∧
    nestedApplyNet (dropNullCountry t) = nestedApplyNet t ∧
    assignNet (dropNullCountry t) = assignNet t ∧
    globalOutlierNet t = netByCountry (dropNullCountry (globalMedianFiltered t)) := by
  refine ⟨aggByCountry_congr _ (groupRows_dropNullCountry t),
    aggByCountry_congr _ (groupRows_dropNullCountry t), ?_, ?_, ?_⟩
  · rw [nestedApplyNet, nestedApplyNet, groupFilterOutliers_dropNullCountry]
  · rw [assignNet, assignNet, assignFiltered_dropNullCountry]
  · exact (aggByCountry_congr _ (groupRows_dropNullCountry (globalMedianFiltered t))).symm

/-- C10: on an empty purchases table (no rows) the total-sum query returns 0
and every group-by aggregation query returns an empty result, with no
failure. -/
theorem empty_table_queries :
    sumAmount [] = 0 ∧ groupbySumAmount [] = [] ∧ netByCountry [] = [] ∧
    globalOutlierNet [] = [] ∧ nestedApplyNet [] = [] ∧ assignNet [] = [] :=
  ⟨rfl, rfl, rfl, rfl, rfl, rfl⟩
